import Mathlib

/-!
Shallow embedding of the `yuma_tools` repository (YUMA almanac parsing).

Source files embedded:
* `src/yuma_tools/parser.py` — `parse_yuma_almanac`
* `src/yuma_tools/reader.py` — `yumaread`

Modelling conventions:
* Python strings are `String`; per-character work is done on `String.data`
  (`List Char`) so that everything reduces in the kernel.
* Python `float` values are modelled as exact rationals (`ℚ`): every numeric
  literal appearing in an almanac file denotes a rational, and two literals
  that are claimed equal denote the same rational, hence round to the same
  IEEE double, so equalities proved here agree with Python float equality.
* Python `datetime` values are modelled symbolically by `PyDateTime`:
  `fromTimestamp m` stands for `datetime.fromtimestamp(m, tz=utc)` and
  `ymd y m d` for `datetime(y, m, d, tzinfo=utc)`.
* Python dicts (one per satellite record) are association lists with
  dict-update semantics (`setKey` overwrites in place, appends new keys),
  matching CPython's insertion-ordered dicts.
* Raised exceptions become `Except`/`Option`; the `verbose` diagnostic
  printing is a pure side effect with no influence on results and is not
  modelled.
-/

namespace Yuma

/-- characters stripped by Python `str.strip()` / matched by `\s` (ASCII part;
almanac files are ASCII). -/
def isPySpace (c : Char) : Bool :=
  c == ' ' || c == '\t' || c == '\n' || c == '\r' || c == '\x0b' || c == '\x0c'

/-- model of Python `str.strip()` on a character list. -/
def stripChars (cs : List Char) : List Char :=
  ((cs.dropWhile isPySpace).reverse.dropWhile isPySpace).reverse

/-- numeric value of a run of decimal digits (`int("ddd")` on digit runs). -/
def digitsVal (ds : List Char) : Nat :=
  ds.foldl (fun a c => 10 * a + (c.toNat - 48)) 0

/-- consume an optional leading sign; returns (isNegative, rest). -/
def parseSign : List Char → Bool × List Char
  | '+' :: t => (false, t)
  | '-' :: t => (true, t)
  | cs => (false, cs)

/-- model of Python `int(str)` on the decimal grammar `[ws][sign]digits[ws]`.
Exotic accepted forms that never occur in almanac data (underscore grouping,
non-ASCII digits) are not modelled and yield `none`. -/
def pyInt (cs : List Char) : Option Int :=
  let cs1 := stripChars cs
  let sr := parseSign cs1
  let dr := sr.2.span Char.isDigit
  if dr.1.isEmpty || !dr.2.isEmpty then none
  else if sr.1 then some (-(digitsVal dr.1 : Int)) else some (digitsVal dr.1 : Int)

/-- model of Python `float(str)` on the finite-decimal grammar
`[ws][sign](digits[.digits] | .digits)[(e|E)[sign]digits][ws]`, returning the
exact rational value.  Forms that never occur in almanac numeric fields
(`inf`, `nan`, underscore grouping, non-ASCII digits) are not modelled and
yield `none`. -/
def pyFloat (cs : List Char) : Option ℚ :=
  let cs1 := stripChars cs
  let sr := parseSign cs1
  let ipr := sr.2.span Char.isDigit
  let fpr : List Char × List Char :=
    match ipr.2 with
    | '.' :: t => t.span Char.isDigit
    | _ => ([], ipr.2)
  if ipr.1.isEmpty && fpr.1.isEmpty then none
  else
    let mant : ℚ := (digitsVal (ipr.1 ++ fpr.1) : ℚ) / ((10 : ℚ) ^ fpr.1.length)
    let signed : ℚ := if sr.1 then -mant else mant
    match fpr.2 with
    | [] => some signed
    | c :: t =>
      if c == 'e' || c == 'E' then
        let esr := parseSign t
        let edr := esr.2.span Char.isDigit
        if edr.1.isEmpty || !edr.2.isEmpty then none
        else if esr.1 then some (signed / ((10 : ℚ) ^ digitsVal edr.1))
        else some (signed * ((10 : ℚ) ^ digitsVal edr.1))
      else none

/-- model of `x.replace("D", "E")` (single-character pattern, all
occurrences). -/
def mapDE (cs : List Char) : List Char :=
  cs.map (fun c => if c == 'D' then 'E' else c)

/-- model of Python `datetime.datetime` values, kept symbolic. -/
inductive PyDateTime where
  /-- `datetime.datetime.fromtimestamp(mtime, tz=timezone.utc)` -/
  | fromTimestamp (mtime : Int)
  /-- `datetime.datetime(y, m, d, tzinfo=timezone.utc)` (midnight UTC) -/
  | ymd (y m d : Nat)
deriving DecidableEq

/-- value stored in a record cell: Python int, float (exact rational) or
datetime. -/
inductive FieldVal where
  | int (n : Int)
  | rat (q : ℚ)
  | dt (d : PyDateTime)
deriving DecidableEq

/-- a satellite record: a Python dict as an insertion-ordered association
list; the cell value `none` models Python `None`. -/
abbrev Rec := List (String × Option FieldVal)

/-- dict read: `some v` when the key is present with value `v`, `none` when
the key is absent. -/
def getVal : Rec → String → Option (Option FieldVal)
  | [], _ => none
  | p :: t, k => if p.1 == k then some p.2 else getVal t k

/-- dict write `record[k] = v`: overwrite in place, else append. -/
def setKey : Rec → String → Option FieldVal → Rec
  | [], k, v => [(k, v)]
  | p :: t, k, v => if p.1 == k then (k, v) :: t else p :: setKey t k v

/-- dict key removal (used for `DataFrame.set_index`, which pops the
column). -/
def delKey : Rec → String → Rec
  | [], _ => []
  | p :: t, k => if p.1 == k then t else p :: delKey t k

/-- `k in record`. -/
def hasKey (r : Rec) (k : String) : Bool :=
  (getVal r k).isSome

/-- the DataFrame cell for key `k`: `none` both when the key is absent (NaN)
and when it is present and null, mirroring `isnull`. -/
def cell (r : Rec) (k : String) : Option FieldVal :=
  (getVal r k).getD none

/-- tag for the converter stored in `field_map` (parser.py lines 45-58):
plain `int`, or `lambda x: float(x.replace("D", "E"))`. -/
inductive ConvTag where
  | toInt
  | toFloatDE
deriving DecidableEq

/-- apply a converter to an (already stripped) value string. -/
def applyConv : ConvTag → List Char → Option FieldVal
  | ConvTag.toInt, v => (pyInt v).map FieldVal.int
  | ConvTag.toFloatDE, v => (pyFloat (mapDE v)).map FieldVal.rat

/-- the `field_map` dict of parser.py lines 45-58, in insertion order. -/
def field_map : List (String × String × ConvTag) :=
  [("ID:", "PRN", ConvTag.toInt),
   ("Health:", "Health", ConvTag.toInt),
   ("Eccentricity:", "Eccentricity", ConvTag.toFloatDE),
   ("Time of Applicability(s):", "TimeOfApplicability", ConvTag.toFloatDE),
   ("Orbital Inclination(rad):", "OrbitalInclination", ConvTag.toFloatDE),
   ("Rate of Right Ascen(r/s):", "RateOfRightAscen", ConvTag.toFloatDE),
   ("SQRT(A)  (m 1/2):", "SQRTA", ConvTag.toFloatDE),
   ("Right Ascen at Week(rad):", "RightAscenAtWeek", ConvTag.toFloatDE),
   ("Argument of Perigee(rad):", "ArgumentOfPerigee", ConvTag.toFloatDE),
   ("Mean Anom(rad):", "MeanAnom", ConvTag.toFloatDE),
   ("Af0(s):", "Af0", ConvTag.toFloatDE),
   ("Af1(s/s):", "Af1", ConvTag.toFloatDE)]

/-- the loop of parser.py lines 87-96: first `field_map` entry whose label
the (stripped) line starts with, skipping the `"ID:"` entry; yields the
attribute key and converter tag. -/
def findField (l : List Char) : Option (String × ConvTag) :=
  (field_map.find? (fun e => e.1.data.isPrefixOf l && !(e.1 == "ID:"))).map (fun e => e.2)

/-- model of `line.split(":", 1)[1]`: text after the first colon; `none`
models the `IndexError` when the line has no colon. -/
def afterColon (cs : List Char) : Option (List Char) :=
  if cs.contains ':' then some ((cs.dropWhile (fun c => !(c == ':'))).drop 1) else none

/-- conversion of one line's value: `value = line.split(":", 1)[1].strip();
converter(value)`, with any failure (IndexError or conversion error)
collapsing to `none` as the `except` branch does. -/
def convertLine (l : List Char) (tag : ConvTag) : Option FieldVal :=
  (afterColon l).bind (fun v => applyConv tag (stripChars v))

/-- try to match the regex `Week\s+(\d+)` at the head of `cs`; yields
`int(group(1))`. -/
def weekMatchAt : List Char → Option Int
  | 'W' :: 'e' :: 'e' :: 'k' :: rest =>
    let wr := rest.span isPySpace
    if wr.1.isEmpty then none
    else
      let dr := wr.2.span Char.isDigit
      if dr.1.isEmpty then none else some (digitsVal dr.1 : Int)
  | _ => none

/-- model of `re.search(r"Week\s+(\d+)", line)`: leftmost match. -/
def weekSearchAux : List Char → Option Int
  | [] => none
  | c :: t =>
    match weekMatchAt (c :: t) with
    | some n => some n
    | none => weekSearchAux t

/-- state of the line scan of parser.py lines 60-96. -/
structure ScanState where
  records : List Rec
  record : Rec
  week : Option Int
deriving DecidableEq

/-- the record opened by an `ID:` line (parser.py lines 77-84):
`{'Week': week, 'Time': almanac_date}` followed by the `record['PRN'] = ...`
assignment (null on conversion failure). -/
def seedRecord (epoch : PyDateTime) (week : Option Int) (prn : Option FieldVal) : Rec :=
  [("Week", week.map FieldVal.int), ("Time", some (FieldVal.dt epoch)), ("PRN", prn)]

/-- close-out of the in-progress record: append it unless empty.  This is
both the append at a subsequent `ID:` line (parser.py lines 75-76) and the
final append (lines 98-99). -/
def closeOut (st : ScanState) : List Rec :=
  if st.record.isEmpty then st.records else st.records ++ [st.record]

/-- one iteration of the scan loop of parser.py lines 64-96. -/
def scanLine (epoch : PyDateTime) (st : ScanState) (raw : String) : ScanState :=
  let l := stripChars raw.data
  if l.isEmpty then st
  else if "******** Week".data.isPrefixOf l then
    match weekSearchAux l with
    | some n => { st with week := some n }
    | none => st
  else if "ID:".data.isPrefixOf l then
    { records := closeOut st,
      record := seedRecord epoch st.week (convertLine l ConvTag.toInt),
      week := st.week }
  else
    match findField l with
    | some kt => { st with record := setKey st.record kt.1 (convertLine l kt.2) }
    | none => st

/-- the whole scan loop, from the initial state of parser.py lines 60-62. -/
def scanAll (epoch : PyDateTime) (lines : List String) : ScanState :=
  List.foldl (scanLine epoch) ⟨[], [], none⟩ lines

/-- the `records` list after the scan and the final close-out. -/
def producedRecords (epoch : PyDateTime) (lines : List String) : List Rec :=
  closeOut (scanAll epoch lines)

/-- `f in df.columns`: some record carries key `f`. -/
def columnPresent (rs : List Rec) (f : String) : Bool :=
  rs.any (fun r => hasKey r f)

/-- `df[f].isnull().all()`: the cell is NaN/null in every record. -/
def columnAllNull (rs : List Rec) (f : String) : Bool :=
  rs.all (fun r => decide (cell r f = none))

/-- the per-column test of parser.py line 108:
`f not in df.columns or df[f].isnull().all()`. -/
def columnMissing (rs : List Rec) (f : String) : Bool :=
  !(columnPresent rs f) || columnAllNull rs f

/-- the `missing` list of parser.py lines 106-108. -/
def requiredMissing (rs : List Rec) : List String :=
  ["PRN", "Week", "Time"].filter (fun f => columnMissing rs f)

/-- typed failures of `parse_yuma_almanac` (ValueErrors of parser.py lines
37, 102 and 110, and the uncaught `KeyError` that `df['Time']` on line 112
raises when no record carries a `Time` key). -/
inductive ParseError where
  | emptyInput
  | noRecords
  | missingRequired (missing : List String)
  | timeKeyError
deriving DecidableEq

/-- epoch actually used by the parser (parser.py lines 39-43): the supplied
`almanac_date`, else the file's last-modification time. -/
def resolveEpoch (almanac_date : Option PyDateTime) (mtime : Int) : PyDateTime :=
  almanac_date.getD (PyDateTime.fromTimestamp mtime)

/-- model of `parse_yuma_almanac` (parser.py lines 6-117) on the file's line
list.  `mtime` is the file's `st_mtime`; file existence and the raw read are
the caller's concern here (they precede the modelled logic).  The final
`pd.to_datetime` on line 112 is value-preserving on the datetime/NaN cells
the scan produces, except that it raises `KeyError` when the `Time` column is
absent. -/
def parse_yuma_almanac (lines : List String) (mtime : Int)
    (almanac_date : Option PyDateTime) (strict : Bool) :
    Except ParseError (List Rec) :=
  if lines.isEmpty then Except.error ParseError.emptyInput
  else
    let records := producedRecords (resolveEpoch almanac_date mtime) lines
    if records.isEmpty then Except.error ParseError.noRecords
    else if strict && !(requiredMissing records).isEmpty then
      Except.error (ParseError.missingRequired (requiredMissing records))
    else if columnPresent records "Time" then Except.ok records
    else Except.error ParseError.timeKeyError

/-! ### Table Assembler / Reader (`src/yuma_tools/reader.py`) -/

/-- try to match the regex `(\d{4})-(\d{2})-(\d{2})` at the head of `cs`;
yields `(int(g1), int(g2), int(g3))`. -/
def dateMatchAt : List Char → Option (Nat × Nat × Nat)
  | a :: b :: c :: d :: '-' :: e :: f :: '-' :: g :: h :: _ =>
    if a.isDigit && b.isDigit && c.isDigit && d.isDigit && e.isDigit && f.isDigit
        && g.isDigit && h.isDigit then
      some (digitsVal [a, b, c, d], digitsVal [e, f], digitsVal [g, h])
    else none
  | _ => none

/-- model of `re.search(r"(\d{4})-(\d{2})-(\d{2})", name)`: leftmost match. -/
def dateSearchAux : List Char → Option (Nat × Nat × Nat)
  | [] => none
  | c :: t =>
    match dateMatchAt (c :: t) with
    | some r => some r
    | none => dateSearchAux t

/-- Gregorian leap year, as `datetime` uses. -/
def isLeapYear (y : Nat) : Bool :=
  (y % 4 == 0 && !(y % 100 == 0)) || y % 400 == 0

/-- days in a month, as `datetime` uses. -/
def daysInMonth (y m : Nat) : Nat :=
  if m == 2 then (if isLeapYear y then 29 else 28)
  else if m == 4 || m == 6 || m == 9 || m == 11 then 30
  else 31

/-- arguments on which `datetime.datetime(y, m, d)` succeeds. -/
def validYMD (y m d : Nat) : Bool :=
  decide (1 ≤ y ∧ y ≤ 9999 ∧ 1 ≤ m ∧ m ≤ 12 ∧ 1 ≤ d ∧ d ≤ daysInMonth y m)

/-- reader.py lines 44-54: extract a `YYYY-MM-DD` date from the file's base
name; an invalid calendar date is caught and degrades to `none`. -/
def dateFromName (name : String) : Option PyDateTime :=
  match dateSearchAux name.data with
  | none => none
  | some ymd =>
    if validYMD ymd.1 ymd.2.1 ymd.2.2 then some (PyDateTime.ymd ymd.1 ymd.2.1 ymd.2.2)
    else none

/-- one entry of the `Time` index after `set_index`: the original timestamp,
or its `strftime` rendering. -/
inductive TimeCell where
  | ts (d : PyDateTime)
  | txt (s : String)
deriving DecidableEq

/-- the DataFrame returned by `yumaread`: the `Time` column becomes the index
(`none` models `NaT` for a record that never had a `Time` key) and is removed
from the rows. -/
structure ReaderTable where
  timeIndex : List (Option TimeCell)
  rows : List Rec
deriving DecidableEq

/-- the `Time` cell of a record as a datetime, when present and non-null. -/
def timeOf (r : Rec) : Option PyDateTime :=
  match cell r "Time" with
  | some (FieldVal.dt d) => some d
  | _ => none

/-- model of `df['Time'].dt.strftime(fmt)` over an abstract `strftime`
function `strf` (the rendering itself is a Python/C library routine outside
this repository): render every present cell, keep `NaT` cells null; `none`
models the raise that reader.py lines 65-69 catch. -/
def renderTimes (strf : String → PyDateTime → Option String) (fmt : String)
    (times : List (Option PyDateTime)) : Option (List (Option String)) :=
  times.mapM (fun ot =>
    match ot with
    | none => some none
    | some d => (strf fmt d).map some)

/-- failures caught by the `except` of reader.py lines 84-87. -/
inductive ReadError where
  | fileNotFound
  | parseFailed (e : ParseError)
  | missingTimeColumn
deriving DecidableEq

/-- model of the `try` body of `yumaread` (reader.py lines 38-82).  `name` is
the file's base name (`Path(filename).name`), `fileExists` its existence,
`lines`/`mtime` its content and `st_mtime`, `strf` the `strftime` routine.
The `display` branch (lines 73-80) only prints and is not modelled. -/
def yumareadCore (strf : String → PyDateTime → Option String) (name : String)
    (fileExists : Bool) (lines : List String) (mtime : Int)
    (time_format : Option String) (strict : Bool) :
    Except ReadError ReaderTable :=
  if !fileExists then Except.error ReadError.fileNotFound
  else
    match parse_yuma_almanac lines mtime (dateFromName name) strict with
    | Except.error e => Except.error (ReadError.parseFailed e)
    | Except.ok records =>
      if !(columnPresent records "Time") then Except.error ReadError.missingTimeColumn
      else
        let times := records.map timeOf
        let index : List (Option TimeCell) :=
          match time_format with
          | some fmt =>
            if fmt.isEmpty then times.map (Option.map TimeCell.ts)
            else
              match renderTimes strf fmt times with
              | some rendered => rendered.map (Option.map TimeCell.txt)
              | none => times.map (Option.map TimeCell.ts)
          | none => times.map (Option.map TimeCell.ts)
        Except.ok { timeIndex := index, rows := records.map (fun r => delKey r "Time") }

/-- model of `yumaread`: every failure of the body is caught and converted to
`none` (reader.py lines 84-87). -/
def yumaread (strf : String → PyDateTime → Option String) (name : String)
    (fileExists : Bool) (lines : List String) (mtime : Int)
    (time_format : Option String) (strict : Bool) : Option ReaderTable :=
  (yumareadCore strf name fileExists lines mtime time_format strict).toOption

/-! ### Well-formed inputs and scan invariants -/

/-- a line that the scan treats as a record start (after stripping, it begins
with `"ID:"`). -/
def isIdLine (raw : String) : Bool :=
  "ID:".data.isPrefixOf (stripChars raw.data)

/-- the PRN value each `ID:` line of the input parses to, in file order. -/
def idPrns (lines : List String) : List (Option FieldVal) :=
  (lines.filter isIdLine).map (fun raw => convertLine (stripChars raw.data) ConvTag.toInt)

/-- PRN cells of the records closed so far, counting the in-progress record
as closed. -/
def prnSeq (st : ScanState) : List (Option FieldVal) :=
  (closeOut st).map (fun r => cell r "PRN")

/-- a record opened by an `ID:` line: it carries a `Week` key, a non-null
`Time` cell holding the epoch, and a `PRN` key. -/
def seeded (epoch : PyDateTime) (r : Rec) : Prop :=
  hasKey r "Week" = true ∧ cell r "Time" = some (FieldVal.dt epoch) ∧ hasKey r "PRN" = true

/-- scan-state invariant once the first `ID:` line has been consumed. -/
def goodState (epoch : PyDateTime) (st : ScanState) : Prop :=
  seeded epoch st.record ∧ ∀ r ∈ st.records, seeded epoch r

/-- auxiliary well-formedness scan: `seen` records whether an `ID:` line has
occurred; a field-label line before the first `ID:` line makes the input
ill-formed.  The branch structure mirrors `scanLine`. -/
def wellFormedAux : Bool → List String → Bool
  | _, [] => true
  | seen, raw :: t =>
    let l := stripChars raw.data
    if l.isEmpty then wellFormedAux seen t
    else if "******** Week".data.isPrefixOf l then wellFormedAux seen t
    else if "ID:".data.isPrefixOf l then wellFormedAux true t
    else
      match findField l with
      | some _ => seen && wellFormedAux seen t
      | none => wellFormedAux seen t

/-- well-formed input: every field line appears only inside a record block
started by an `ID:` line. -/
def wellFormed (lines : List String) : Bool :=
  wellFormedAux false lines

/-! ### Helper lemmas about record dictionaries -/

theorem getVal_setKey_self (r : Rec) (k : String) (v : Option FieldVal) :
    getVal (setKey r k v) k = some v := by
  induction r with
  | nil => simp [setKey, getVal]
  | cons p t ih =>
    by_cases h : p.1 == k
    · simp [setKey, getVal, h]
    · simp [setKey, getVal, h, ih]

theorem getVal_setKey_ne (r : Rec) (k k2 : String) (v : Option FieldVal)
    (h : k2 ≠ k) : getVal (setKey r k v) k2 = getVal r k2 := by
  induction r with
  | nil =>
    simp only [setKey, getVal]
    rw [if_neg]
    simp [beq_iff_eq]
    intro hk; exact h hk.symm
  | cons p t ih =>
    by_cases hp : p.1 == k
    · have hp' : p.1 = k := by simpa [beq_iff_eq] using hp
      simp only [setKey, if_pos hp, getVal]
      rw [if_neg, if_neg]
      · simp [beq_iff_eq, hp']
        intro hk; exact h hk.symm
      · simp [beq_iff_eq]
        intro hk; exact h hk.symm
    · simp only [setKey, if_neg hp, getVal]
      by_cases hq : p.1 == k2
      · simp [hq]
      · simp [hq, ih]

theorem setKey_ne_nil (r : Rec) (k : String) (v : Option FieldVal) :
    (setKey r k v).isEmpty = false := by
  cases r with
  | nil => simp [setKey]
  | cons p t =>
    by_cases h : p.1 == k
    · simp [setKey, h]
    · simp [setKey, h]

theorem hasKey_setKey_of (r : Rec) (k k2 : String) (v : Option FieldVal)
    (h : hasKey r k2 = true) : hasKey (setKey r k v) k2 = true := by
  by_cases hk : k2 = k
  · subst hk; simp [hasKey, getVal_setKey_self]
  · simpa [hasKey, getVal_setKey_ne r k k2 v hk] using h

theorem cell_setKey_ne (r : Rec) (k k2 : String) (v : Option FieldVal)
    (h : k2 ≠ k) : cell (setKey r k v) k2 = cell r k2 := by
  simp [cell, getVal_setKey_ne r k k2 v h]

theorem cell_setKey_self (r : Rec) (k : String) (v : Option FieldVal) :
    cell (setKey r k v) k = v := by
  simp [cell, getVal_setKey_self]

/-- a record with a key is not the empty dict. -/
theorem hasKey_ne_nil (r : Rec) (k : String) (h : hasKey r k = true) :
    r.isEmpty = false := by
  cases r with
  | nil => simp [hasKey, getVal] at h
  | cons p t => simp

/-- heads of two prefixes of the same list agree. -/
theorem isPrefixOf_cons_head (a b : Char) (p q l : List Char)
    (ha : (a :: p).isPrefixOf l = true) (hb : (b :: q).isPrefixOf l = true) :
    a = b := by
  cases l with
  | nil => simp [List.isPrefixOf] at ha
  | cons c t =>
    simp only [List.isPrefixOf, Bool.and_eq_true, beq_iff_eq] at ha hb
    exact ha.1.trans hb.1.symm

/-- a week-header line is not an `ID:` line. -/
theorem not_id_of_week (l : List Char)
    (h : "******** Week".data.isPrefixOf l = true) :
    "ID:".data.isPrefixOf l = false := by
  by_contra hid
  have hid' : "ID:".data.isPrefixOf l = true := by
    revert hid; cases "ID:".data.isPrefixOf l <;> simp
  have : '*' = 'I' := isPrefixOf_cons_head '*' 'I' _ _ l h hid'
  simp at this

/-- the key found by `findField` is never one of the required columns. -/
theorem findField_key_ne (l : List Char) (k : String) (tag : ConvTag)
    (h : findField l = some (k, tag)) :
    k ≠ "PRN" ∧ k ≠ "Week" ∧ k ≠ "Time" := by
  simp only [findField, Option.map_eq_some'] at h
  obtain ⟨e, he, hek⟩ := h
  have hmem := List.mem_of_find?_eq_some he
  have hpred := List.find?_some he
  have hk : e.2.1 = k := congrArg Prod.fst hek
  rw [← hk]
  fin_cases hmem <;> simp_all <;> (obtain ⟨h1, h2⟩ := hek; subst h1; decide)

/-! ### Branch lemmas for the scan -/

theorem scanLine_blank (epoch : PyDateTime) (st : ScanState) (raw : String)
    (h1 : (stripChars raw.data).isEmpty = true) : scanLine epoch st raw = st := by
  simp [scanLine, h1]

theorem scanLine_week_some (epoch : PyDateTime) (st : ScanState) (raw : String) (n : Int)
    (h1 : (stripChars raw.data).isEmpty = false)
    (h2 : "******** Week".data.isPrefixOf (stripChars raw.data) = true)
    (h3 : weekSearchAux (stripChars raw.data) = some n) :
    scanLine epoch st raw = { st with week := some n } := by
  simp [scanLine, h1, h2, h3]

theorem scanLine_week_none (epoch : PyDateTime) (st : ScanState) (raw : String)
    (h1 : (stripChars raw.data).isEmpty = false)
    (h2 : "******** Week".data.isPrefixOf (stripChars raw.data) = true)
    (h3 : weekSearchAux (stripChars raw.data) = none) :
    scanLine epoch st raw = st := by
  simp [scanLine, h1, h2, h3]

theorem scanLine_id (epoch : PyDateTime) (st : ScanState) (raw : String)
    (h1 : (stripChars raw.data).isEmpty = false)
    (h2 : "******** Week".data.isPrefixOf (stripChars raw.data) = false)
    (h3 : "ID:".data.isPrefixOf (stripChars raw.data) = true) :
    scanLine epoch st raw =
      { records := closeOut st,
        record := seedRecord epoch st.week (convertLine (stripChars raw.data) ConvTag.toInt),
        week := st.week } := by
  simp [scanLine, h1, h2, h3]

theorem scanLine_field (epoch : PyDateTime) (st : ScanState) (raw : String)
    (k : String) (tag : ConvTag)
    (h1 : (stripChars raw.data).isEmpty = false)
    (h2 : "******** Week".data.isPrefixOf (stripChars raw.data) = false)
    (h3 : "ID:".data.isPrefixOf (stripChars raw.data) = false)
    (h4 : findField (stripChars raw.data) = some (k, tag)) :
    scanLine epoch st raw =
      { st with record := setKey st.record k (convertLine (stripChars raw.data) tag) } := by
  simp [scanLine, h1, h2, h3, h4]

theorem scanLine_other (epoch : PyDateTime) (st : ScanState) (raw : String)
    (h1 : (stripChars raw.data).isEmpty = false)
    (h2 : "******** Week".data.isPrefixOf (stripChars raw.data) = false)
    (h3 : "ID:".data.isPrefixOf (stripChars raw.data) = false)
    (h4 : findField (stripChars raw.data) = none) :
    scanLine epoch st raw = st := by
  simp [scanLine, h1, h2, h3, h4]

theorem wfAux_blank (b : Bool) (raw : String) (t : List String)
    (h1 : (stripChars raw.data).isEmpty = true) :
    wellFormedAux b (raw :: t) = wellFormedAux b t := by
  simp [wellFormedAux, h1]

theorem wfAux_week (b : Bool) (raw : String) (t : List String)
    (h1 : (stripChars raw.data).isEmpty = false)
    (h2 : "******** Week".data.isPrefixOf (stripChars raw.data) = true) :
    wellFormedAux b (raw :: t) = wellFormedAux b t := by
  simp [wellFormedAux, h1, h2]

theorem wfAux_id (b : Bool) (raw : String) (t : List String)
    (h1 : (stripChars raw.data).isEmpty = false)
    (h2 : "******** Week".data.isPrefixOf (stripChars raw.data) = false)
    (h3 : "ID:".data.isPrefixOf (stripChars raw.data) = true) :
    wellFormedAux b (raw :: t) = wellFormedAux true t := by
  simp [wellFormedAux, h1, h2, h3]

theorem wfAux_field (b : Bool) (raw : String) (t : List String)
    (k : String) (tag : ConvTag)
    (h1 : (stripChars raw.data).isEmpty = false)
    (h2 : "******** Week".data.isPrefixOf (stripChars raw.data) = false)
    (h3 : "ID:".data.isPrefixOf (stripChars raw.data) = false)
    (h4 : findField (stripChars raw.data) = some (k, tag)) :
    wellFormedAux b (raw :: t) = (b && wellFormedAux b t) := by
  simp [wellFormedAux, h1, h2, h3, h4]

theorem wfAux_other (b : Bool) (raw : String) (t : List String)
    (h1 : (stripChars raw.data).isEmpty = false)
    (h2 : "******** Week".data.isPrefixOf (stripChars raw.data) = false)
    (h3 : "ID:".data.isPrefixOf (stripChars raw.data) = false)
    (h4 : findField (stripChars raw.data) = none) :
    wellFormedAux b (raw :: t) = wellFormedAux b t := by
  simp [wellFormedAux, h1, h2, h3, h4]

theorem idPrns_cons_id (raw : String) (t : List String) (h : isIdLine raw = true) :
    idPrns (raw :: t) = convertLine (stripChars raw.data) ConvTag.toInt :: idPrns t := by
  simp [idPrns, List.filter, h]

theorem idPrns_cons_not (raw : String) (t : List String) (h : isIdLine raw = false) :
    idPrns (raw :: t) = idPrns t := by
  simp [idPrns, List.filter, h]

theorem seeded_seedRecord (epoch : PyDateTime) (wk : Option Int) (v : Option FieldVal) :
    seeded epoch (seedRecord epoch wk v) :=
  ⟨rfl, rfl, rfl⟩

theorem seedRecord_ne_nil (epoch : PyDateTime) (wk : Option Int) (v : Option FieldVal) :
    (seedRecord epoch wk v).isEmpty = false :=
  rfl

theorem cell_seedRecord_prn (epoch : PyDateTime) (wk : Option Int) (v : Option FieldVal) :
    cell (seedRecord epoch wk v) "PRN" = v :=
  rfl

/-- an `ID:` line strips to a nonempty string. -/
theorem ne_nil_of_id (l : List Char) (h : "ID:".data.isPrefixOf l = true) :
    l.isEmpty = false := by
  cases l with
  | nil => simp [List.isPrefixOf] at h
  | cons c t => simp

/-- an `ID:` line is not a week-header line. -/
theorem not_week_of_id (l : List Char) (h : "ID:".data.isPrefixOf l = true) :
    "******** Week".data.isPrefixOf l = false := by
  by_contra hw
  have hw' : "******** Week".data.isPrefixOf l = true := by
    revert hw; cases "******** Week".data.isPrefixOf l <;> simp
  have : '*' = 'I' := isPrefixOf_cons_head '*' 'I' _ _ l hw' h
  simp at this

/-! ### The scan invariant -/

/-- main invariant of the scan loop: over a well-formed suffix, the closed
records extend by exactly the PRN conversions of the `ID:` lines, and every
closed record (and the in-progress one) is seeded with `Week`, `Time`, `PRN`.
The flag `b` records whether an `ID:` line has already been consumed. -/
theorem scan_inv (epoch : PyDateTime) :
    ∀ (lines : List String) (st : ScanState) (b : Bool),
      wellFormedAux b lines = true →
      (b = true → goodState epoch st) →
      (b = false → st.records = [] ∧ st.record = []) →
      prnSeq (List.foldl (scanLine epoch) st lines) = prnSeq st ++ idPrns lines ∧
      ∀ r ∈ closeOut (List.foldl (scanLine epoch) st lines), seeded epoch r := by
  intro lines
  induction lines with
  | nil =>
    intro st b hwf hT hF
    refine ⟨by simp [idPrns], ?_⟩
    intro r hr
    cases b with
    | false =>
      obtain ⟨hrecs, hrec⟩ := hF rfl
      simp [closeOut, hrecs, hrec] at hr
    | true =>
      obtain ⟨hrec, hrecs⟩ := hT rfl
      have hne : st.record.isEmpty = false := hasKey_ne_nil _ _ hrec.1
      simp only [List.foldl_nil, closeOut, hne, Bool.false_eq_true, if_false,
        List.mem_append, List.mem_singleton] at hr
      rcases hr with hr | hr
      · exact hrecs r hr
      · subst hr; exact hrec
  | cons raw t ih =>
    intro st b hwf hT hF
    rw [List.foldl_cons]
    cases h1 : (stripChars raw.data).isEmpty with
    | true =>
      have hid : isIdLine raw = false := by
        have hl : stripChars raw.data = [] := by
          cases hx : stripChars raw.data
          · rfl
          · rw [hx] at h1; simp at h1
        simp [isIdLine, hl, List.isPrefixOf]
      rw [scanLine_blank epoch st raw h1, idPrns_cons_not raw t hid]
      rw [wfAux_blank b raw t h1] at hwf
      exact ih st b hwf hT hF
    | false =>
      cases h2 : "******** Week".data.isPrefixOf (stripChars raw.data) with
      | true =>
        have hid : isIdLine raw = false := by
          simpa [isIdLine] using not_id_of_week _ h2
        rw [idPrns_cons_not raw t hid]
        rw [wfAux_week b raw t h1 h2] at hwf
        cases h3 : weekSearchAux (stripChars raw.data) with
        | some n =>
          rw [scanLine_week_some epoch st raw n h1 h2 h3]
          have hT' : b = true → goodState epoch { st with week := some n } := by
            intro hb; obtain ⟨x, y⟩ := hT hb; exact ⟨x, y⟩
          have hF' : b = false → ({ st with week := some n } : ScanState).records = [] ∧
              ({ st with week := some n } : ScanState).record = [] := by
            intro hb; obtain ⟨x, y⟩ := hF hb; exact ⟨x, y⟩
          obtain ⟨p1, p2⟩ := ih { st with week := some n } b hwf hT' hF'
          refine ⟨?_, p2⟩
          rw [p1]
          simp [prnSeq, closeOut]
        | none =>
          rw [scanLine_week_none epoch st raw h1 h2 h3]
          exact ih st b hwf hT hF
      | false =>
        cases h3 : "ID:".data.isPrefixOf (stripChars raw.data) with
        | true =>
          have hid : isIdLine raw = true := h3
          rw [scanLine_id epoch st raw h1 h2 h3, idPrns_cons_id raw t hid]
          rw [wfAux_id b raw t h1 h2 h3] at hwf
          set v := convertLine (stripChars raw.data) ConvTag.toInt with hv
          set st' : ScanState :=
            { records := closeOut st, record := seedRecord epoch st.week v,
              week := st.week } with hst'
          have hT' : true = true → goodState epoch st' := by
            intro _
            refine ⟨seeded_seedRecord epoch st.week v, ?_⟩
            intro r hr
            cases b with
            | false =>
              obtain ⟨hrecs, hrec⟩ := hF rfl
              simp [hst', closeOut, hrecs, hrec] at hr
            | true =>
              obtain ⟨hrec, hrecs⟩ := hT rfl
              have hne : st.record.isEmpty = false := hasKey_ne_nil _ _ hrec.1
              simp only [hst', closeOut, hne, Bool.false_eq_true, if_false,
                List.mem_append, List.mem_singleton] at hr
              rcases hr with hr | hr
              · exact hrecs r hr
              · subst hr; exact hrec
          have hF' : true = false → st'.records = [] ∧ st'.record = [] := by
            intro hb; simp at hb
          obtain ⟨p1, p2⟩ := ih st' true hwf hT' hF'
          refine ⟨?_, p2⟩
          rw [p1]
          have hclose : closeOut st' = closeOut st ++ [seedRecord epoch st.week v] := by
            simp [hst', closeOut, seedRecord_ne_nil]
          have hpr : prnSeq st' = prnSeq st ++ [v] := by
            simp [prnSeq, hclose, cell_seedRecord_prn]
          rw [hpr]
          simp
        | false =>
          cases h4 : findField (stripChars raw.data) with
          | some kt =>
            have hid : isIdLine raw = false := h3
            have h4' : findField (stripChars raw.data) = some (kt.1, kt.2) := by
              simpa using h4
            rw [scanLine_field epoch st raw kt.1 kt.2 h1 h2 h3 h4',
              idPrns_cons_not raw t hid]
            rw [wfAux_field b raw t kt.1 kt.2 h1 h2 h3 h4'] at hwf
            rw [Bool.and_eq_true] at hwf
            obtain ⟨hb, hwf⟩ := hwf
            subst hb
            obtain ⟨hrec, hrecs⟩ := hT rfl
            obtain ⟨knp, knw, knt⟩ := findField_key_ne _ kt.1 kt.2 h4'
            set cv := convertLine (stripChars raw.data) kt.2 with hcv
            set st' : ScanState := { st with record := setKey st.record kt.1 cv } with hst'
            have hrec' : seeded epoch st'.record := by
              refine ⟨?_, ?_, ?_⟩
              · exact hasKey_setKey_of st.record kt.1 "Week" cv hrec.1
              · rw [show st'.record = setKey st.record kt.1 cv from rfl,
                  cell_setKey_ne st.record kt.1 "Time" cv (Ne.symm knt)]
                exact hrec.2.1
              · exact hasKey_setKey_of st.record kt.1 "PRN" cv hrec.2.2
            have hT' : true = true → goodState epoch st' := by
              intro _
              exact ⟨hrec', fun r hr => hrecs r hr⟩
            have hF' : true = false → st'.records = [] ∧ st'.record = [] := by
              intro hb; simp at hb
            obtain ⟨p1, p2⟩ := ih st' true hwf hT' hF'
            refine ⟨?_, p2⟩
            rw [p1]
            have hnew : st'.record.isEmpty = false := setKey_ne_nil _ _ _
            have hold : st.record.isEmpty = false := hasKey_ne_nil _ _ hrec.1
            have hpr : prnSeq st' = prnSeq st := by
              simp only [prnSeq, closeOut, hnew, hold, Bool.false_eq_true, if_false]
              simp [cell_setKey_ne st.record kt.1 "PRN" cv (Ne.symm knp)]
            rw [hpr]
          | none =>
            have hid : isIdLine raw = false := h3
            rw [scanLine_other epoch st raw h1 h2 h3 h4, idPrns_cons_not raw t hid]
            rw [wfAux_other b raw t h1 h2 h3 h4] at hwf
            exact ih st b hwf hT hF

/-- on well-formed input, the produced records' PRN cells are the `ID:`
lines' conversions, in file order. -/
theorem produced_prns (epoch : PyDateTime) (lines : List String)
    (hwf : wellFormed lines = true) :
    (producedRecords epoch lines).map (fun r => cell r "PRN") = idPrns lines := by
  have h := scan_inv epoch lines ⟨[], [], none⟩ false hwf
    (fun h => by simp at h) (fun _ => ⟨rfl, rfl⟩)
  simpa [producedRecords, scanAll, prnSeq] using h.1

/-- on well-formed input, every produced record is seeded. -/
theorem produced_seeded (epoch : PyDateTime) (lines : List String)
    (hwf : wellFormed lines = true) :
    ∀ r ∈ producedRecords epoch lines, seeded epoch r := by
  have h := scan_inv epoch lines ⟨[], [], none⟩ false hwf
    (fun h => by simp at h) (fun _ => ⟨rfl, rfl⟩)
  simpa [producedRecords, scanAll] using h.2

/-- inversion of a successful parse: the table is the scan's record list and
the `Time` column is present. -/
theorem parse_ok_elim (lines : List String) (mtime : Int) (ad : Option PyDateTime)
    (strict : Bool) (t : List Rec)
    (h : parse_yuma_almanac lines mtime ad strict = Except.ok t) :
    t = producedRecords (resolveEpoch ad mtime) lines ∧
    columnPresent t "Time" = true := by
  simp only [parse_yuma_almanac] at h
  set rs := producedRecords (resolveEpoch ad mtime) lines with hrs
  by_cases h1 : lines.isEmpty = true
  · rw [if_pos h1] at h; exact absurd h (by simp)
  · rw [if_neg h1] at h
    by_cases h2 : rs.isEmpty = true
    · rw [if_pos h2] at h; exact absurd h (by simp)
    · rw [if_neg h2] at h
      by_cases h3 : (strict && !(requiredMissing rs).isEmpty) = true
      · rw [if_pos h3] at h; exact absurd h (by simp)
      · rw [if_neg h3] at h
        by_cases h4 : columnPresent rs "Time" = true
        · rw [if_pos h4] at h
          obtain rfl : rs = t := Except.ok.inj h
          exact ⟨rfl, h4⟩
        · rw [if_neg h4] at h; exact absurd h (by simp)

/-! ### Claim C1 -/

/-- C1 (confirmed).  For every well-formed YUMA input (one where every field
line appears only inside a record block started by an `ID:` line), the table
returned by `parse_yuma_almanac` contains exactly as many records as there
are lines beginning with `ID:` in the input, in file order: the records'
PRN cells are precisely the `ID:` lines' PRN conversions, in file order. -/
theorem parsed_records_match_id_lines (lines : List String) (mtime : Int)
    (ad : Option PyDateTime) (strict : Bool) (t : List Rec)
    (hwf : wellFormed lines = true)
    (hok : parse_yuma_almanac lines mtime ad strict = Except.ok t) :
    t.map (fun r => cell r "PRN") = idPrns lines ∧
    t.length = (lines.filter isIdLine).length := by
  obtain ⟨rfl, -⟩ := parse_ok_elim lines mtime ad strict t hok
  have hmap := produced_prns (resolveEpoch ad mtime) lines hwf
  refine ⟨hmap, ?_⟩
  have := congrArg List.length hmap
  simpa [idPrns] using this

/-- witness for C1 at a concrete two-line input. -/
theorem parsed_records_match_id_lines_witness :
    ([[("Week", none), ("Time", some (FieldVal.dt (PyDateTime.ymd 2024 1 1))),
        ("PRN", some (FieldVal.int 2))]] : List Rec).map (fun r => cell r "PRN") =
      idPrns ["hello", "ID: 2"] ∧
    ([[("Week", none), ("Time", some (FieldVal.dt (PyDateTime.ymd 2024 1 1))),
        ("PRN", some (FieldVal.int 2))]] : List Rec).length =
      (["hello", "ID: 2"].filter isIdLine).length :=
  parsed_records_match_id_lines ["hello", "ID: 2"] 0 (some (PyDateTime.ymd 2024 1 1))
    false _ (by decide) rfl

/-- a line with a nonempty literal as a leading substring is nonblank. -/
theorem ne_nil_of_week (l : List Char)
    (h : "******** Week".data.isPrefixOf l = true) : l.isEmpty = false := by
  cases l with
  | nil => simp [List.isPrefixOf] at h
  | cons c t => simp

/-! ### Claim C2 -/

/-- C2 (confirmed).  Numeric field conversion substitutes `E` for `D` and
then parses as a floating-point value; an `Eccentricity:` line carrying
`0.1234567D-01` yields an Eccentricity cell exactly equal to `0.01234567`
(both texts denote the same rational, hence the same IEEE double). -/
theorem d_exponent_substitution (epoch : PyDateTime) (st : ScanState) :
    (∀ v : List Char, applyConv ConvTag.toFloatDE v =
        (pyFloat (mapDE v)).map FieldVal.rat) ∧
    cell (scanLine epoch st "Eccentricity:  0.1234567D-01").record "Eccentricity" =
      some (FieldVal.rat 0.01234567) ∧
    pyFloat "0.01234567".data = some (0.01234567 : ℚ) := by
  have e2 : ((1234567 : ℚ) / 10 ^ 7 / 10 ^ 1) = 0.01234567 := by norm_num
  have e4 : ((1234567 : ℚ) / 10 ^ 8) = 0.01234567 := by norm_num
  refine ⟨fun v => rfl, ?_, ?_⟩
  · rw [scanLine_field epoch st "Eccentricity:  0.1234567D-01" "Eccentricity"
      ConvTag.toFloatDE (by decide) (by decide) (by decide) (by decide)]
    rw [show convertLine (stripChars ("Eccentricity:  0.1234567D-01" : String).data)
        ConvTag.toFloatDE = some (FieldVal.rat ((1234567 : ℚ) / 10 ^ 7 / 10 ^ 1)) from rfl]
    rw [e2]
    exact cell_setKey_self st.record "Eccentricity" (some (FieldVal.rat 0.01234567))
  · rw [show pyFloat ("0.01234567" : String).data = some ((1234567 : ℚ) / 10 ^ 8) from rfl,
      e4]

/-! ### Claim C6 -/

/-- C6 (confirmed).  A `******** Week` header line containing a decimal
integer updates the week value used to seed every record started after it
(the state's `records` and in-progress `record` are untouched, so closed
records and the current record are unaffected); a week-header line with no
integer after `Week` leaves the week unchanged; and a record started by an
`ID:` line is seeded with the week value current at that line. -/
theorem week_header_behavior (epoch : PyDateTime) (st : ScanState) (raw : String) :
    ("******** Week".data.isPrefixOf (stripChars raw.data) = true →
      (∀ n : Int, weekSearchAux (stripChars raw.data) = some n →
        scanLine epoch st raw = { st with week := some n }) ∧
      (weekSearchAux (stripChars raw.data) = none → scanLine epoch st raw = st)) ∧
    ("ID:".data.isPrefixOf (stripChars raw.data) = true →
      getVal (scanLine epoch st raw).record "Week" = some (st.week.map FieldVal.int) ∧
      (scanLine epoch st raw).records = closeOut st) := by
  constructor
  · intro h2
    have h1 := ne_nil_of_week _ h2
    exact ⟨fun n h3 => scanLine_week_some epoch st raw n h1 h2 h3,
      fun h3 => scanLine_week_none epoch st raw h1 h2 h3⟩
  · intro h3
    rw [scanLine_id epoch st raw (ne_nil_of_id _ h3) (not_week_of_id _ h3) h3]
    exact ⟨rfl, rfl⟩

/-- witness for C6: a real header updates the week, a header without an
integer leaves it unchanged, and an `ID:` record picks up the current
week. -/
theorem week_header_behavior_witness :
    scanLine (PyDateTime.ymd 2024 1 1) ⟨[], [], none⟩ "******** Week 1350 almanac ********" =
      ⟨[], [], some 1350⟩ ∧
    scanLine (PyDateTime.ymd 2024 1 1) ⟨[], [], none⟩ "******** Weekly" = ⟨[], [], none⟩ ∧
    getVal (scanLine (PyDateTime.ymd 2024 1 1) ⟨[], [], some 7⟩ "ID: 3").record "Week" =
      some (some (FieldVal.int 7)) :=
  ⟨((week_header_behavior (PyDateTime.ymd 2024 1 1) ⟨[], [], none⟩
      "******** Week 1350 almanac ********").1 (by decide)).1 1350 (by decide),
   ((week_header_behavior (PyDateTime.ymd 2024 1 1) ⟨[], [], none⟩
      "******** Weekly").1 (by decide)).2 (by decide),
   (((week_header_behavior (PyDateTime.ymd 2024 1 1) ⟨[], [], some 7⟩ "ID: 3").2
      (by decide)).1).trans (by decide)⟩

/-! ### Claim C10 -/

/-- C10 (confirmed).  A field line matching a label writes the conversion of
its own value into the record regardless of any value previously stored
under that key: when the same label occurs twice in one record block, the
appended record holds the conversion of the last occurrence, including a
failed conversion (null) overwriting an earlier successful value. -/
theorem duplicate_field_last_wins (epoch : PyDateTime) (st : ScanState) (raw : String)
    (k : String) (tag : ConvTag)
    (h1 : (stripChars raw.data).isEmpty = false)
    (h2 : "******** Week".data.isPrefixOf (stripChars raw.data) = false)
    (h3 : "ID:".data.isPrefixOf (stripChars raw.data) = false)
    (h4 : findField (stripChars raw.data) = some (k, tag)) :
    getVal (scanLine epoch st raw).record k =
      some (convertLine (stripChars raw.data) tag) := by
  rw [scanLine_field epoch st raw k tag h1 h2 h3 h4]
  exact getVal_setKey_self st.record k _

/-- witness for C10: a second `Health:` line whose value fails conversion
overwrites the earlier successfully parsed value with null. -/
theorem duplicate_field_last_wins_witness :
    getVal (scanLine (PyDateTime.ymd 2024 1 1)
        (scanLine (PyDateTime.ymd 2024 1 1) ⟨[], [], none⟩ "Health: 7")
        "Health: zz").record "Health" = some none ∧
    getVal (scanLine (PyDateTime.ymd 2024 1 1) ⟨[], [], none⟩ "Health: 7").record
      "Health" = some (some (FieldVal.int 7)) :=
  ⟨(duplicate_field_last_wins (PyDateTime.ymd 2024 1 1)
      (scanLine (PyDateTime.ymd 2024 1 1) ⟨[], [], none⟩ "Health: 7") "Health: zz"
      "Health" ConvTag.toInt (by decide) (by decide) (by decide) (by decide)).trans
      (by decide),
   by decide⟩

/-! ### Claim C4 -/

/-- C4 (confirmed).  A line whose field value or PRN text fails its
conversion sets that single attribute to null and the scan continues: the
closed records are untouched, the record is not discarded, and the record's
other keys are unchanged.  The scan state and this fact do not depend on
the strict flag (strict only gates the post-scan validation). -/
theorem conversion_failure_degrades_to_null (epoch : PyDateTime) (st : ScanState)
    (raw : String) :
    (∀ k tag,
      (stripChars raw.data).isEmpty = false →
      "******** Week".data.isPrefixOf (stripChars raw.data) = false →
      "ID:".data.isPrefixOf (stripChars raw.data) = false →
      findField (stripChars raw.data) = some (k, tag) →
      convertLine (stripChars raw.data) tag = none →
      (scanLine epoch st raw).records = st.records ∧
      (scanLine epoch st raw).week = st.week ∧
      getVal (scanLine epoch st raw).record k = some none ∧
      ∀ k2, k2 ≠ k → getVal (scanLine epoch st raw).record k2 = getVal st.record k2) ∧
    ("ID:".data.isPrefixOf (stripChars raw.data) = true →
      convertLine (stripChars raw.data) ConvTag.toInt = none →
      (scanLine epoch st raw).records = closeOut st ∧
      getVal (scanLine epoch st raw).record "PRN" = some none ∧
      getVal (scanLine epoch st raw).record "Week" = some (st.week.map FieldVal.int) ∧
      cell (scanLine epoch st raw).record "Time" = some (FieldVal.dt epoch)) := by
  constructor
  · intro k tag h1 h2 h3 h4 hfail
    rw [scanLine_field epoch st raw k tag h1 h2 h3 h4]
    refine ⟨rfl, rfl, ?_, ?_⟩
    · rw [hfail]
      exact getVal_setKey_self st.record k none
    · intro k2 hk2
      exact getVal_setKey_ne st.record k k2 _ hk2
  · intro hid hfail
    rw [scanLine_id epoch st raw (ne_nil_of_id _ hid) (not_week_of_id _ hid) hid]
    rw [hfail]
    exact ⟨rfl, rfl, rfl, rfl⟩

/-- witness for C4: a `Health:` line with a bad value nulls only `Health`,
and an `ID:` line with a non-integer payload yields `PRN = null` while the
record keeps its `Week`/`Time` seeds. -/
theorem conversion_failure_degrades_to_null_witness :
    ((scanLine (PyDateTime.ymd 2024 1 1) ⟨[], [("Week", none)], some 5⟩
        "Health: zz").records = ([] : List Rec) ∧
      (scanLine (PyDateTime.ymd 2024 1 1) ⟨[], [("Week", none)], some 5⟩
        "Health: zz").week = some 5 ∧
      getVal (scanLine (PyDateTime.ymd 2024 1 1) ⟨[], [("Week", none)], some 5⟩
        "Health: zz").record "Health" = some none ∧
      ∀ k2, k2 ≠ "Health" →
        getVal (scanLine (PyDateTime.ymd 2024 1 1) ⟨[], [("Week", none)], some 5⟩
          "Health: zz").record k2 = getVal [("Week", none)] k2) ∧
    ((scanLine (PyDateTime.ymd 2024 1 1) ⟨[], [], some 5⟩ "ID: xx").records =
        closeOut ⟨[], [], some 5⟩ ∧
      getVal (scanLine (PyDateTime.ymd 2024 1 1) ⟨[], [], some 5⟩ "ID: xx").record
        "PRN" = some none ∧
      getVal (scanLine (PyDateTime.ymd 2024 1 1) ⟨[], [], some 5⟩ "ID: xx").record
        "Week" = some ((some 5 : Option Int).map FieldVal.int) ∧
      cell (scanLine (PyDateTime.ymd 2024 1 1) ⟨[], [], some 5⟩ "ID: xx").record
        "Time" = some (FieldVal.dt (PyDateTime.ymd 2024 1 1))) :=
  ⟨(conversion_failure_degrades_to_null (PyDateTime.ymd 2024 1 1)
      ⟨[], [("Week", none)], some 5⟩ "Health: zz").1 "Health" ConvTag.toInt
      (by decide) (by decide) (by decide) (by decide) (by decide),
   (conversion_failure_degrades_to_null (PyDateTime.ymd 2024 1 1)
      ⟨[], [], some 5⟩ "ID: xx").2 (by decide) (by decide)⟩

/-! ### Claim C5 -/

/-- C5 counterexample.  The claim "every record appended to the output has
both its Week field and its Time field set" fails on the code: a field line
before the first `ID:` line opens an anonymous record that is appended
without `Week` or `Time` keys when the first `ID:` line closes it
(parser.py lines 75-76 append any nonempty `record`, and lines 86-96 write
fields into the initial empty dict). -/
theorem appended_record_missing_week_time_counterexample :
    parse_yuma_almanac ["Health: 1", "ID: 4"] 0 (some (PyDateTime.ymd 2024 1 1)) false =
      Except.ok [[("Health", some (FieldVal.int 1))],
        [("Week", none), ("Time", some (FieldVal.dt (PyDateTime.ymd 2024 1 1))),
          ("PRN", some (FieldVal.int 4))]] ∧
    hasKey [("Health", some (FieldVal.int 1))] "Week" = false ∧
    hasKey [("Health", some (FieldVal.int 1))] "Time" = false :=
  ⟨rfl, rfl, rfl⟩

/-- C5 (amended).  On well-formed input (no field line before the first
`ID:` line), every record of the returned table is nonempty and has both its
Week key (possibly null) and its Time cell (the resolved epoch) set, and
records are appended exactly once per `ID:` line (a record closes when the
next `ID:` line starts or at end of input; an empty in-progress record is
never appended). -/
theorem appended_records_seeded (lines : List String) (mtime : Int)
    (ad : Option PyDateTime) (strict : Bool) (t : List Rec)
    (hwf : wellFormed lines = true)
    (hok : parse_yuma_almanac lines mtime ad strict = Except.ok t) :
    (∀ r ∈ t, r.isEmpty = false ∧ hasKey r "Week" = true ∧
      cell r "Time" = some (FieldVal.dt (resolveEpoch ad mtime))) ∧
    t.length = (lines.filter isIdLine).length := by
  obtain ⟨rfl, -⟩ := parse_ok_elim lines mtime ad strict t hok
  constructor
  · intro r hr
    have hs := produced_seeded (resolveEpoch ad mtime) lines hwf r hr
    exact ⟨hasKey_ne_nil r "Week" hs.1, hs.1, hs.2.1⟩
  · have hmap := produced_prns (resolveEpoch ad mtime) lines hwf
    have := congrArg List.length hmap
    simpa [idPrns] using this

/-- witness for the amended C5 at a concrete strict-mode input. -/
theorem appended_records_seeded_witness :
    (([("Week", some (FieldVal.int 91)),
        ("Time", some (FieldVal.dt (PyDateTime.fromTimestamp 5))),
        ("PRN", some (FieldVal.int 9))] : Rec).isEmpty = false ∧
      hasKey [("Week", some (FieldVal.int 91)),
        ("Time", some (FieldVal.dt (PyDateTime.fromTimestamp 5))),
        ("PRN", some (FieldVal.int 9))] "Week" = true ∧
      cell [("Week", some (FieldVal.int 91)),
        ("Time", some (FieldVal.dt (PyDateTime.fromTimestamp 5))),
        ("PRN", some (FieldVal.int 9))] "Time" =
        some (FieldVal.dt (resolveEpoch none 5))) ∧
    ([[("Week", some (FieldVal.int 91)),
        ("Time", some (FieldVal.dt (PyDateTime.fromTimestamp 5))),
        ("PRN", some (FieldVal.int 9))]] : List Rec).length =
      (["******** Week 91 ********", "ID: 9"].filter isIdLine).length :=
  ⟨(appended_records_seeded ["******** Week 91 ********", "ID: 9"] 5 none true _
      (by decide) rfl).1 _ (by decide),
   (appended_records_seeded ["******** Week 91 ********", "ID: 9"] 5 none true _
      (by decide) rfl).2⟩

/-! ### Claim C7 -/

/-- C7 counterexample.  The claim "the parser never reads the source file's
timestamps ... including the case where no epoch is supplied" fails on the
code: with no `almanac_date`, parser.py lines 39-43 derive the epoch from
`filepath.stat().st_mtime`, so the same lines with different mtimes parse to
different tables. -/
theorem parser_reads_mtime_counterexample :
    parse_yuma_almanac ["ID: 1"] 0 none false ≠
      parse_yuma_almanac ["ID: 1"] 1 none false := by
  intro h
  rw [show parse_yuma_almanac ["ID: 1"] 0 none false =
      Except.ok [[("Week", none), ("Time", some (FieldVal.dt (PyDateTime.fromTimestamp 0))),
        ("PRN", some (FieldVal.int 1))]] from rfl,
    show parse_yuma_almanac ["ID: 1"] 1 none false =
      Except.ok [[("Week", none), ("Time", some (FieldVal.dt (PyDateTime.fromTimestamp 1))),
        ("PRN", some (FieldVal.int 1))]] from rfl] at h
  simp at h

/-- C7 (amended).  When an epoch is supplied, the parser's output does not
depend on the file's last-modification time; when no epoch is supplied, the
parser itself resolves the epoch from the file's mtime (and yumaread may
additionally resolve one from the filename before calling). -/
theorem parser_epoch_dependence (lines : List String) (strict : Bool)
    (e : PyDateTime) (m1 m2 : Int) :
    parse_yuma_almanac lines m1 (some e) strict =
      parse_yuma_almanac lines m2 (some e) strict ∧
    ∀ m : Int, parse_yuma_almanac lines m none strict =
      parse_yuma_almanac lines m (some (PyDateTime.fromTimestamp m)) strict :=
  ⟨rfl, fun _ => rfl⟩

/-! ### Claim C3 -/

/-- the `missing` list is nonempty exactly when one of the three required
columns is missing. -/
theorem requiredMissing_ne_nil (rs : List Rec) :
    (requiredMissing rs).isEmpty = false ↔
      (columnMissing rs "PRN" = true ∨ columnMissing rs "Week" = true ∨
        columnMissing rs "Time" = true) := by
  cases h1 : columnMissing rs "PRN" <;> cases h2 : columnMissing rs "Week" <;>
    cases h3 : columnMissing rs "Time" <;>
      simp [requiredMissing, List.filter_cons, h1, h2, h3]

/-- success characterization of the parser as its four guards. -/
theorem parse_ok_iff (lines : List String) (mtime : Int) (ad : Option PyDateTime)
    (strict : Bool) :
    (∃ t, parse_yuma_almanac lines mtime ad strict = Except.ok t) ↔
      (lines.isEmpty = false ∧
        (producedRecords (resolveEpoch ad mtime) lines).isEmpty = false ∧
        (strict && !(requiredMissing (producedRecords (resolveEpoch ad mtime) lines)).isEmpty)
          = false ∧
        columnPresent (producedRecords (resolveEpoch ad mtime) lines) "Time" = true) := by
  simp only [parse_yuma_almanac]
  cases h1 : lines.isEmpty <;>
    cases h2 : (producedRecords (resolveEpoch ad mtime) lines).isEmpty <;>
      cases h3 : (strict &&
          !(requiredMissing (producedRecords (resolveEpoch ad mtime) lines)).isEmpty) <;>
        cases h4 : columnPresent (producedRecords (resolveEpoch ad mtime) lines) "Time" <;>
          simp [h1, h2, h3, h4]

/-- C3 counterexample.  The claim "parse_yuma_almanac fails if and only if
(a) empty input, (b) zero records, or (c) strict-mode missing required
columns" fails on the code: on the one-line input `"Health: 1"` with strict
off, none of (a), (b), (c) holds — the input is nonempty, one record is
produced, and strict mode is off so (c) cannot apply — yet the parse fails,
because no record carries a `Time` key and `df['Time']` on parser.py line
112 raises an uncaught `KeyError`. -/
theorem parse_failure_beyond_spec_counterexample :
    parse_yuma_almanac ["Health: 1"] 0 none false = Except.error ParseError.timeKeyError ∧
    (["Health: 1"] : List String).isEmpty = false ∧
    (producedRecords (resolveEpoch none 0) ["Health: 1"]).isEmpty = false :=
  ⟨rfl, rfl, rfl⟩

/-- C3 (amended).  `parse_yuma_almanac` fails if and only if one of FOUR
terminal conditions holds: (a) the input has zero lines; (b) zero records
are produced; (c) strict mode is on and one of the `PRN`, `Week`, `Time`
columns is null or absent for every produced record; or (d) strict mode is
off and no produced record carries a `Time` key (the uncaught `KeyError` of
parser.py line 112).  A required column with a mix of present and null
values passes strict validation, and on success the table is returned with
the null values in place (second conjunct: the returned table is exactly
the scanned record list). -/
theorem parse_failure_characterization (lines : List String) (mtime : Int)
    (ad : Option PyDateTime) (strict : Bool) :
    ((∃ t, parse_yuma_almanac lines mtime ad strict = Except.ok t) ↔
      ¬(lines.isEmpty = true ∨
        (producedRecords (resolveEpoch ad mtime) lines).isEmpty = true ∨
        (strict = true ∧
          (columnMissing (producedRecords (resolveEpoch ad mtime) lines) "PRN" = true ∨
            columnMissing (producedRecords (resolveEpoch ad mtime) lines) "Week" = true ∨
            columnMissing (producedRecords (resolveEpoch ad mtime) lines) "Time" = true)) ∨
        (strict = false ∧
          columnPresent (producedRecords (resolveEpoch ad mtime) lines) "Time" = false))) ∧
    (∀ t, parse_yuma_almanac lines mtime ad strict = Except.ok t →
      t = producedRecords (resolveEpoch ad mtime) lines) := by
  refine ⟨?_, fun t ht => (parse_ok_elim lines mtime ad strict t ht).1⟩
  rw [parse_ok_iff lines mtime ad strict]
  constructor
  · rintro ⟨hl, hr, hx, hp⟩
    rintro (h | h | ⟨hs, h⟩ | ⟨hs, h⟩)
    · simp [hl] at h
    · simp [hr] at h
    · have hne : (requiredMissing (producedRecords (resolveEpoch ad mtime) lines)).isEmpty
          = false := (requiredMissing_ne_nil _).mpr h
      rw [hs, hne] at hx
      simp at hx
    · simp [hp] at h
  · intro hno
    refine ⟨?_, ?_, ?_, ?_⟩
    · cases hl : lines.isEmpty with
      | false => rfl
      | true => exact absurd (Or.inl hl) hno
    · cases hr : (producedRecords (resolveEpoch ad mtime) lines).isEmpty with
      | false => rfl
      | true => exact absurd (Or.inr (Or.inl hr)) hno
    · cases hx : (strict &&
          !(requiredMissing (producedRecords (resolveEpoch ad mtime) lines)).isEmpty) with
      | false => rfl
      | true =>
        rw [Bool.and_eq_true] at hx
        obtain ⟨hs, hne⟩ := hx
        have hne' : (requiredMissing (producedRecords (resolveEpoch ad mtime) lines)).isEmpty
            = false := by simpa using hne
        exact absurd (Or.inr (Or.inr (Or.inl ⟨hs, (requiredMissing_ne_nil _).mp hne'⟩))) hno
    · cases hp : columnPresent (producedRecords (resolveEpoch ad mtime) lines) "Time" with
      | true => rfl
      | false =>
        cases hs : strict with
        | false => exact absurd (Or.inr (Or.inr (Or.inr ⟨hs, hp⟩))) hno
        | true =>
          have hcm : columnMissing (producedRecords (resolveEpoch ad mtime) lines) "Time"
              = true := by simp [columnMissing, hp]
          exact absurd (Or.inr (Or.inr (Or.inl ⟨hs, Or.inr (Or.inr hcm)⟩))) hno

/-- witness for C3 at a concrete one-record input. -/
theorem parse_failure_characterization_witness :
    ([[("Week", none), ("Time", some (FieldVal.dt (PyDateTime.ymd 2025 2 3))),
        ("PRN", some (FieldVal.int 8))]] : List Rec) =
      producedRecords (resolveEpoch (some (PyDateTime.ymd 2025 2 3)) 0) ["ID: 8"] :=
  (parse_failure_characterization ["ID: 8"] 0 (some (PyDateTime.ymd 2025 2 3)) false).2 _ rfl

/-! ### Reader helper lemmas -/

/-- a non-null `yumaread` result comes from a successful core run. -/
theorem yumaread_some_elim (strf : String → PyDateTime → Option String) (name : String)
    (fe : Bool) (lines : List String) (mtime : Int) (fmt : Option String)
    (strict : Bool) (t : ReaderTable)
    (h : yumaread strf name fe lines mtime fmt strict = some t) :
    yumareadCore strf name fe lines mtime fmt strict = Except.ok t := by
  unfold yumaread at h
  cases hcore : yumareadCore strf name fe lines mtime fmt strict with
  | error e => rw [hcore] at h; simp [Except.toOption] at h
  | ok tb =>
    rw [hcore] at h
    simp only [Except.toOption, Option.some.injEq] at h
    exact congrArg Except.ok h

/-- core run with no time format: the index is the raw timestamps. -/
theorem yumareadCore_none_fmt (strf : String → PyDateTime → Option String)
    (name : String) (lines : List String) (mtime : Int) (strict : Bool)
    (records : List Rec)
    (hp : parse_yuma_almanac lines mtime (dateFromName name) strict = Except.ok records)
    (hcp : columnPresent records "Time" = true) :
    yumareadCore strf name true lines mtime none strict =
      Except.ok { timeIndex := (records.map timeOf).map (Option.map TimeCell.ts),
                  rows := records.map (fun r => delKey r "Time") } := by
  simp [yumareadCore, hp, hcp]

/-! ### Claim C8 -/

/-- C8 counterexample.  The claim "every record of the returned table has
Time equal to the filename date at midnight UTC" fails on the code for
inputs with a field line before the first `ID:` line: that stray record has
no `Time` key, so its index entry is `NaT` (here `none`), not the filename
date. -/
theorem filename_date_counterexample :
    yumaread (fun _ _ => none) "almanac_2024-03-05.txt" true
        ["Health: 1", "ID: 4"] 0 none false =
      some { timeIndex := [none, some (TimeCell.ts (PyDateTime.ymd 2024 3 5))],
             rows := [[("Health", some (FieldVal.int 1))],
                      [("Week", none), ("PRN", some (FieldVal.int 4))]] } ∧
    (none : Option TimeCell) ≠ some (TimeCell.ts (PyDateTime.ymd 2024 3 5)) :=
  ⟨rfl, by simp⟩

/-- C8 (amended).  On well-formed input, when `yumaread` is given a filename
containing a `YYYY-MM-DD` pattern that forms a valid calendar date (here
`2024-03-05`) and no time format, every index entry of the returned table is
that date at midnight UTC, for every file modification time (the filename
date overrides the mtime). -/
theorem filename_date_overrides_mtime (strf : String → PyDateTime → Option String)
    (lines : List String) (mtime : Int) (strict : Bool) (t : ReaderTable)
    (hwf : wellFormed lines = true)
    (hok : yumaread strf "almanac_2024-03-05.txt" true lines mtime none strict = some t) :
    ∀ c ∈ t.timeIndex, c = some (TimeCell.ts (PyDateTime.ymd 2024 3 5)) := by
  intro c hc
  have hcore := yumaread_some_elim strf "almanac_2024-03-05.txt" true lines mtime none
    strict t hok
  cases hp : parse_yuma_almanac lines mtime (dateFromName "almanac_2024-03-05.txt")
      strict with
  | error e =>
    rw [show yumareadCore strf "almanac_2024-03-05.txt" true lines mtime none strict =
        Except.error (ReadError.parseFailed e) by simp [yumareadCore, hp]] at hcore
    cases hcore
  | ok records =>
    have hcp : columnPresent records "Time" = true :=
      (parse_ok_elim lines mtime (dateFromName "almanac_2024-03-05.txt") strict records hp).2
    rw [yumareadCore_none_fmt strf "almanac_2024-03-05.txt" lines mtime strict records
      hp hcp] at hcore
    have ht := Except.ok.inj hcore
    subst ht
    simp only [List.mem_map] at hc
    obtain ⟨x, ⟨r, hr, rfl⟩, rfl⟩ := hc
    have hrec : records = producedRecords
        (resolveEpoch (dateFromName "almanac_2024-03-05.txt") mtime) lines :=
      (parse_ok_elim lines mtime (dateFromName "almanac_2024-03-05.txt") strict records hp).1
    rw [hrec] at hr
    have hs := produced_seeded (resolveEpoch (dateFromName "almanac_2024-03-05.txt") mtime)
      lines hwf r hr
    have htime : timeOf r = some (PyDateTime.ymd 2024 3 5) := by
      rw [timeOf, hs.2.1]
      rfl
    rw [htime]
    rfl

/-- witness for the amended C8 at a concrete one-record input with an
unrelated mtime. -/
theorem filename_date_overrides_mtime_witness :
    (some (TimeCell.ts (PyDateTime.ymd 2024 3 5)) : Option TimeCell) =
      some (TimeCell.ts (PyDateTime.ymd 2024 3 5)) :=
  filename_date_overrides_mtime (fun _ _ => none) ["ID: 6"] 123 false
    { timeIndex := [some (TimeCell.ts (PyDateTime.ymd 2024 3 5))],
      rows := [[("Week", none), ("PRN", some (FieldVal.int 6))]] }
    (by decide) rfl (some (TimeCell.ts (PyDateTime.ymd 2024 3 5))) (by decide)

/-! ### Claim C9 -/

/-- C9 (confirmed).  `yumaread` never propagates a failure to its caller:
a missing source yields `none`, any typed parser failure yields `none`, and
a failure of `strftime` rendering alone is non-fatal — the table is still
returned with the `Time` index left as the original timestamp values.  (The
accompanying diagnostics are prints with no effect on the result and are not
modelled.) -/
theorem yumaread_flattens_errors (strf : String → PyDateTime → Option String)
    (name : String) (lines : List String) (mtime : Int) (fmt : Option String)
    (strict : Bool) :
    yumaread strf name false lines mtime fmt strict = none ∧
    (∀ e, parse_yuma_almanac lines mtime (dateFromName name) strict = Except.error e →
      yumaread strf name true lines mtime fmt strict = none) ∧
    (∀ f records, fmt = some f → f.isEmpty = false →
      parse_yuma_almanac lines mtime (dateFromName name) strict = Except.ok records →
      renderTimes strf f (records.map timeOf) = none →
      yumaread strf name true lines mtime fmt strict =
        some { timeIndex := (records.map timeOf).map (Option.map TimeCell.ts),
               rows := records.map (fun r => delKey r "Time") }) := by
  refine ⟨rfl, ?_, ?_⟩
  · intro e he
    simp [yumaread, yumareadCore, he, Except.toOption]
  · intro f records hf hfne hp hrend
    subst hf
    have hcp : columnPresent records "Time" = true :=
      (parse_ok_elim lines mtime (dateFromName name) strict records hp).2
    simp [yumaread, yumareadCore, hp, hcp, hfne, hrend, Except.toOption]

/-- witness for C9: a missing file, an empty input, and a failing renderer
on a one-record file. -/
theorem yumaread_flattens_errors_witness :
    yumaread (fun _ _ => none) "f" false ["ID: 2"] 0 none true = none ∧
    yumaread (fun _ _ => none) "f" true [] 0 none true = none ∧
    yumaread (fun _ _ => none) "f" true ["ID: 2"] 0 (some "%Y") false =
      some { timeIndex := [some (TimeCell.ts (PyDateTime.fromTimestamp 0))],
             rows := [[("Week", none), ("PRN", some (FieldVal.int 2))]] } :=
  ⟨(yumaread_flattens_errors (fun _ _ => none) "f" ["ID: 2"] 0 none true).1,
   (yumaread_flattens_errors (fun _ _ => none) "f" [] 0 none true).2.1
     ParseError.emptyInput rfl,
   by
    have h := (yumaread_flattens_errors (fun _ _ => none) "f" ["ID: 2"] 0 (some "%Y")
      false).2.2 "%Y"
      [[("Week", none), ("Time", some (FieldVal.dt (PyDateTime.fromTimestamp 0))),
        ("PRN", some (FieldVal.int 2))]] rfl rfl rfl rfl
    exact h⟩

end Yuma
